import Mathlib

/-!
Verification of `accelerate`'s transformer-engine glue
(`src/accelerate/utils/transformer_engine.py` and the single-GPU
verification driver
`src/accelerate/test_utils/scripts/external_deps/transformerengine/non_distributed.py`)
against its natural-language specification.

The Python module tree is shallowly embedded: a `Module` is the rooted tree
of named children reachable from a torch module, a `Tensor` is an abstract
parameter storage (an allocation identity, a shape, a dtype, and the stored
values), and the in-place tree mutation performed by `convert_model` is
embedded as explicit state passing of the rewritten tree together with an
allocation counter that hands out fresh storage identities to newly
constructed layers.
-/

namespace Accelerate

/-- Numeric dtype of a parameter tensor (torch dtypes used by the code). -/
inductive Dtype where
  | float32
  | float16
  | bfloat16
  deriving DecidableEq, Repr

/-- A parameter tensor: `tid` is the storage identity (allocation tag) used to
distinguish copies from aliases, `shape` its dimensions, `vals` the stored
values (values are only ever copied verbatim by this code, never computed
with, so exact rationals stand in for floats without loss). -/
structure Tensor where
  tid : Nat
  shape : List Nat
  dtype : Dtype
  vals : List Rat
  deriving DecidableEq, Repr

/-- Data of an `nn.Linear` / `te.Linear` layer: `in_features`, `out_features`,
the weight tensor (shape `[out_features, in_features]` for well-formed
layers), and the optional bias. -/
structure LinearData where
  in_features : Nat
  out_features : Nat
  weight : Tensor
  bias : Option Tensor
  deriving DecidableEq, Repr

/-- Data of an `nn.LayerNorm` / `te.LayerNorm` layer: the `normalized_shape`
tuple (nonempty for any constructible torch LayerNorm), `eps`, weight and
bias tensors. -/
structure LayerNormData where
  normalized_shape : List Nat
  eps : Rat
  weight : Tensor
  bias : Tensor
  deriving DecidableEq, Repr

/-- Python exceptions surfaced by the embedded fragment.
`importErrorGuard` is the explicit `raise ImportError(msg)` executed by the
`is_fp8_available` guard at the top of `convert_model` /
`has_transformer_engine_layers`; `moduleNotFoundError` is the
`ModuleNotFoundError` raised by a failed `import` statement (as in
`apply_fp8_autowrap`, which imports the kernel library directly instead of
consulting the guard); `typeError` is a constructor-call rejection of an
unexpected keyword argument; `attributeError` a failed `getattr`;
`assertionError` a failed `assert` in the verification driver. -/
inductive Err where
  | importErrorGuard (msg : String)
  | moduleNotFoundError (modName : String)
  | typeError (msg : String)
  | attributeError (msg : String)
  | assertionError (msg : String)
  deriving DecidableEq, Repr

/-- Python keyword-argument resolution at a call site: every keyword passed
must be in the callee's accepted signature, otherwise the call raises
`TypeError: ... got an unexpected keyword argument ...`. -/
def checkKwargs (accepted : List String) (passed : List String) : Except Err Unit :=
  match passed.find? (fun k => !(accepted.contains k)) with
  | some k => .error (.typeError ("got an unexpected keyword argument " ++ k))
  | none => .ok ()

/-- Keywords accepted by `torch.nn.Linear.__init__` besides the positional
feature counts: `(in_features, out_features, bias=True, device=None,
dtype=None)`. There is no `params_dtype` keyword. -/
def nnLinearKwargs : List String := ["bias", "device", "dtype"]

/-- Keywords accepted by `torch.nn.LayerNorm.__init__` besides the positional
`normalized_shape`: `(eps, elementwise_affine, bias, device, dtype)`.
There is no `params_dtype` keyword. -/
def nnLayerNormKwargs : List String := ["eps", "elementwise_affine", "bias", "device", "dtype"]

/-- Relevant keywords accepted by `transformer_engine.pytorch.Linear.__init__`
(`bias` and `params_dtype` among further initialization options unused
here). -/
def teLinearKwargs : List String := ["bias", "params_dtype", "init_method", "device"]

/-- Relevant keywords accepted by
`transformer_engine.pytorch.LayerNorm.__init__` (`eps` and `params_dtype`
among further options unused here). -/
def teLayerNormKwargs : List String := ["eps", "params_dtype", "device"]

mutual
/-- A torch module as seen by `convert_model` /
`has_transformer_engine_layers`: either one of the four leaf layer kinds the
code dispatches on (`nn.Linear`, `nn.LayerNorm`, `te.Linear`,
`te.LayerNorm`), a `te.TransformerLayer` (recognized by
`has_transformer_engine_layers` and recursed into by `convert_model`'s
`else` branch), or any other module, which only contributes its named
children (`container`). -/
inductive Module where
  | nnLinear : LinearData → Module
  | nnLayerNorm : LayerNormData → Module
  | teLinear : LinearData → Module
  | teLayerNorm : LayerNormData → Module
  | teTransformerLayer : Children → Module
  | container : Children → Module

/-- The ordered association of child names to child modules returned by
`model.named_children()`. -/
inductive Children where
  | nil : Children
  | cons : String → Module → Children → Children
end

/-- The named children of a module (`model.named_children()`): the four leaf
layer kinds have none; composite modules yield theirs in order. -/
def Module.namedChildren : Module → Children
  | .nnLinear _ => .nil
  | .nnLayerNorm _ => .nil
  | .teLinear _ => .nil
  | .teLayerNorm _ => .nil
  | .teTransformerLayer cs => cs
  | .container cs => cs

/-- `te.Linear(in_features, out_features, bias=has_bias,
params_dtype=module.weight.dtype)` followed by `copy_` of weight (and bias
when present): a fresh weight storage of shape `[out, in]` in the requested
dtype holding the copied values, likewise a fresh bias storage. Returns the
new module together with the advanced allocation counter. -/
def mkTeLinear (d : LinearData) (ctr : Nat) : Module × Nat :=
  let w : Tensor :=
    { tid := ctr, shape := [d.out_features, d.in_features],
      dtype := d.weight.dtype, vals := d.weight.vals }
  match d.bias with
  | some b =>
      (.teLinear
        { in_features := d.in_features, out_features := d.out_features, weight := w,
          bias := some { tid := ctr + 1, shape := [d.out_features],
                         dtype := d.weight.dtype, vals := b.vals } },
       ctr + 2)
  | none =>
      (.teLinear
        { in_features := d.in_features, out_features := d.out_features, weight := w,
          bias := none },
       ctr + 1)

/-- `te.LayerNorm(module.normalized_shape[0], eps=module.eps,
params_dtype=module.weight.dtype)` followed by `copy_` of weight and bias.
The source reads index 0 of `normalized_shape`; torch LayerNorms always have
a nonempty `normalized_shape`, embedded here with `headD`. -/
def mkTeLayerNorm (d : LayerNormData) (ctr : Nat) : Module × Nat :=
  let n := d.normalized_shape.headD 0
  (.teLayerNorm
    { normalized_shape := [n], eps := d.eps,
      weight := { tid := ctr, shape := [n], dtype := d.weight.dtype, vals := d.weight.vals },
      bias := { tid := ctr + 1, shape := [n], dtype := d.weight.dtype, vals := d.bias.vals } },
   ctr + 2)

/-- The replacement the reverse branch intends to build —
`nn.Linear(in_features, out_features, ...)` with copied parameters. With
torch's actual constructor signature this point is unreachable (the call
site passes `params_dtype`, rejected by `checkKwargs` first). -/
def mkNNLinearFromTe (d : LinearData) (ctr : Nat) : Module × Nat :=
  let w : Tensor :=
    { tid := ctr, shape := [d.out_features, d.in_features],
      dtype := d.weight.dtype, vals := d.weight.vals }
  match d.bias with
  | some b =>
      (.nnLinear
        { in_features := d.in_features, out_features := d.out_features, weight := w,
          bias := some { tid := ctr + 1, shape := [d.out_features],
                         dtype := d.weight.dtype, vals := b.vals } },
       ctr + 2)
  | none =>
      (.nnLinear
        { in_features := d.in_features, out_features := d.out_features, weight := w,
          bias := none },
       ctr + 1)

/-- The replacement the reverse branch intends to build for normalization —
`nn.LayerNorm(normalized_shape[0], eps, ...)` with copied parameters;
unreachable for the same reason as `mkNNLinearFromTe`. -/
def mkNNLayerNormFromTe (d : LayerNormData) (ctr : Nat) : Module × Nat :=
  let n := d.normalized_shape.headD 0
  (.nnLayerNorm
    { normalized_shape := [n], eps := d.eps,
      weight := { tid := ctr, shape := [n], dtype := d.weight.dtype, vals := d.weight.vals },
      bias := { tid := ctr + 1, shape := [n], dtype := d.weight.dtype, vals := d.bias.vals } },
   ctr + 2)

/-- The body of `convert_model`'s `for name, module in model.named_children()`
loop, embedded over the remaining children list. Each arm mirrors the
source's `if`/`elif` chain in order; the `else` arm of the source — a
recursive `convert_model(module, ...)` call, which re-runs the availability
guard (a no-op here since availability cannot change during the call) and
loops over the child's own children — is written out at each constructor
that falls through to it. The early `return` on a weight dimension that is
not a multiple of 16 ends the current call: the offending child and every
child after it in this list are returned untouched. -/
def convert_children (to_transformer_engine convert_linear convert_ln : Bool)
    (ctr : Nat) : Children → Except Err (Children × Nat)
  | .nil => .ok (.nil, ctr)
  | .cons name (.nnLinear d) rest =>
      if to_transformer_engine && convert_linear then
        -- "Return early if the linear layer weights are not multiples of 16"
        if d.weight.shape.any (fun p => p % 16 != 0) then
          .ok (.cons name (.nnLinear d) rest, ctr)
        else
          match checkKwargs teLinearKwargs ["bias", "params_dtype"] with
          | .error e => .error e
          | .ok _ =>
            let (te_module, ctr₁) := mkTeLinear d ctr
            match convert_children to_transformer_engine convert_linear convert_ln ctr₁ rest with
            | .error e => .error e
            | .ok (rest', ctr₂) => .ok (.cons name te_module rest', ctr₂)
      else
        match convert_children to_transformer_engine convert_linear convert_ln ctr rest with
        | .error e => .error e
        | .ok (rest', ctr₁) => .ok (.cons name (.nnLinear d) rest', ctr₁)
  | .cons name (.nnLayerNorm d) rest =>
      if to_transformer_engine && convert_ln then
        match checkKwargs teLayerNormKwargs ["eps", "params_dtype"] with
        | .error e => .error e
        | .ok _ =>
          let (te_module, ctr₁) := mkTeLayerNorm d ctr
          match convert_children to_transformer_engine convert_linear convert_ln ctr₁ rest with
          | .error e => .error e
          | .ok (rest', ctr₂) => .ok (.cons name te_module rest', ctr₂)
      else
        match convert_children to_transformer_engine convert_linear convert_ln ctr rest with
        | .error e => .error e
        | .ok (rest', ctr₁) => .ok (.cons name (.nnLayerNorm d) rest', ctr₁)
  | .cons name (.teLinear d) rest =>
      if !to_transformer_engine && convert_linear then
        -- nn.Linear(module.in_features, module.out_features, bias=has_bias,
        --           params_dtype=module.weight.dtype)
        match checkKwargs nnLinearKwargs ["bias", "params_dtype"] with
        | .error e => .error e
        | .ok _ =>
          let (new_module, ctr₁) := mkNNLinearFromTe d ctr
          match convert_children to_transformer_engine convert_linear convert_ln ctr₁ rest with
          | .error e => .error e
          | .ok (rest', ctr₂) => .ok (.cons name new_module rest', ctr₂)
      else
        match convert_children to_transformer_engine convert_linear convert_ln ctr rest with
        | .error e => .error e
        | .ok (rest', ctr₁) => .ok (.cons name (.teLinear d) rest', ctr₁)
  | .cons name (.teLayerNorm d) rest =>
      if !to_transformer_engine && convert_ln then
        -- nn.LayerNorm(module.normalized_shape[0], eps=module.eps,
        --              params_dtype=module.weight.dtype)
        match checkKwargs nnLayerNormKwargs ["eps", "params_dtype"] with
        | .error e => .error e
        | .ok _ =>
          let (new_module, ctr₁) := mkNNLayerNormFromTe d ctr
          match convert_children to_transformer_engine convert_linear convert_ln ctr₁ rest with
          | .error e => .error e
          | .ok (rest', ctr₂) => .ok (.cons name new_module rest', ctr₂)
      else
        match convert_children to_transformer_engine convert_linear convert_ln ctr rest with
        | .error e => .error e
        | .ok (rest', ctr₁) => .ok (.cons name (.teLayerNorm d) rest', ctr₁)
  | .cons name (.teTransformerLayer cs) rest =>
      match convert_children to_transformer_engine convert_linear convert_ln ctr cs with
      | .error e => .error e
      | .ok (cs', ctr₁) =>
        match convert_children to_transformer_engine convert_linear convert_ln ctr₁ rest with
        | .error e => .error e
        | .ok (rest', ctr₂) => .ok (.cons name (.teTransformerLayer cs') rest', ctr₂)
  | .cons name (.container cs) rest =>
      match convert_children to_transformer_engine convert_linear convert_ln ctr cs with
      | .error e => .error e
      | .ok (cs', ctr₁) =>
        match convert_children to_transformer_engine convert_linear convert_ln ctr₁ rest with
        | .error e => .error e
        | .ok (rest', ctr₂) => .ok (.cons name (.container cs') rest', ctr₂)

/-- Modelled from the spec: `is_fp8_available` lives in
`accelerate.utils.imports`, outside this fragment; per spec §6/§9 it is a
capability check for the optimized-kernel library, resolved once at startup.
It is embedded as a boolean flag passed to each entry point. -/
abbrev Fp8Available := Bool

/-- `convert_model(model, to_transformer_engine=True, _convert_linear=True,
_convert_ln=True)`: raises the guard `ImportError` when the capability check
fails, otherwise rewrites the tree in place (embedded as returning the
rewritten tree) while threading the allocation counter. The root module
itself is never replaced — only children are assigned via `setattr`. -/
def convert_model (fp8_available : Fp8Available) (model : Module)
    (to_transformer_engine : Bool := true) (convert_linear : Bool := true)
    (convert_ln : Bool := true) (ctr : Nat := 0) : Except Err (Module × Nat) :=
  if fp8_available = false then
    .error (.importErrorGuard "Using `convert_model` requires transformer_engine to be installed.")
  else
    match model with
    | .nnLinear d => .ok (.nnLinear d, ctr)
    | .nnLayerNorm d => .ok (.nnLayerNorm d, ctr)
    | .teLinear d => .ok (.teLinear d, ctr)
    | .teLayerNorm d => .ok (.teLayerNorm d, ctr)
    | .teTransformerLayer cs =>
        match convert_children to_transformer_engine convert_linear convert_ln ctr cs with
        | .error e => .error e
        | .ok (cs', ctr') => .ok (.teTransformerLayer cs', ctr')
    | .container cs =>
        match convert_children to_transformer_engine convert_linear convert_ln ctr cs with
        | .error e => .error e
        | .ok (cs', ctr') => .ok (.container cs', ctr')

deriving instance DecidableEq for Module, Children

/-- The `isinstance(m, (te.LayerNorm, te.Linear, te.TransformerLayer))` test
of `has_transformer_engine_layers`: the three recognized optimized layer
types. -/
def isTeLayer : Module → Bool
  | .teLinear _ => true
  | .teLayerNorm _ => true
  | .teTransformerLayer _ => true
  | _ => false

/-- Whether any module in a children list — the child itself or any of its
descendants — is one of the three optimized types. Together with the root
check below this embeds the `for m in model.modules()` scan. -/
def anyTeChildren : Children → Bool
  | .nil => false
  | .cons _ (.nnLinear _) rest => anyTeChildren rest
  | .cons _ (.nnLayerNorm _) rest => anyTeChildren rest
  | .cons _ (.teLinear _) _ => true
  | .cons _ (.teLayerNorm _) _ => true
  | .cons _ (.teTransformerLayer _) _ => true
  | .cons _ (.container cs) rest => anyTeChildren cs || anyTeChildren rest

/-- The value of the `for m in model.modules()` scan: the root itself or any
descendant is one of the three optimized types. -/
def hasTeB (model : Module) : Bool :=
  isTeLayer model || anyTeChildren model.namedChildren

/-- `has_transformer_engine_layers(model)`: guard `ImportError` when the
capability check fails, otherwise scan `model.modules()` (the root and all
descendants) for an instance of the three optimized types. -/
def has_transformer_engine_layers (fp8_available : Fp8Available) (model : Module) :
    Except Err Bool :=
  if fp8_available = false then
    .error (.importErrorGuard
      "Using `has_transformer_engine_layers` requires transformer_engine to be installed.")
  else
    .ok (hasTeB model)

/-- Membership of a module in a children list (a child of some name). -/
inductive ChildMem : Module → Children → Prop where
  | head (n : String) (m : Module) (r : Children) : ChildMem m (.cons n m r)
  | tail (n : String) (m' : Module) {m : Module} {r : Children} :
      ChildMem m r → ChildMem m (.cons n m' r)

/-- `Occurs x m`: `x` is a node of the tree rooted at `m` — the root itself,
or (recursively) a node of one of its children. This is the spec-level
notion of "a node of the tree", defined independently of the scan
performed by `has_transformer_engine_layers`. -/
inductive Occurs : Module → Module → Prop where
  | refl (m : Module) : Occurs m m
  | inContainer {x c : Module} {cs : Children} :
      ChildMem c cs → Occurs x c → Occurs x (.container cs)
  | inTransformer {x c : Module} {cs : Children} :
      ChildMem c cs → Occurs x c → Occurs x (.teTransformerLayer cs)

/-- `transformer_engine.common.recipe.Format`: the enumerated FP8 formats. -/
inductive Fp8Format where
  | E4M3
  | E5M2
  | HYBRID
  deriving DecidableEq, Repr

/-- `getattr(te_recipe.Format, s)`: resolve a format name to the enum member;
an unknown name raises `AttributeError`. -/
def formatOfString (s : String) : Option Fp8Format :=
  if s = "E4M3" then some .E4M3
  else if s = "E5M2" then some .E5M2
  else if s = "HYBRID" then some .HYBRID
  else none

/-- The keyword dictionary produced by `fp8_recipe_handler.to_kwargs()` (the
handler type itself is external; its kwargs are what this fragment
consumes): the three `DelayedScaling` options the driver uses, each
optional. `fp8_format`, when present, is a string key still to be
resolved. -/
structure RecipeKwargs where
  fp8_format : Option String
  amax_history_len : Option Nat
  amax_compute_algo : Option String
  deriving DecidableEq, Repr

/-- `te_recipe.DelayedScaling(**kwargs)` — the constructed recipe, with the
format already resolved to the enum member (absent fields fall back to
library defaults, kept as `none` here). -/
structure DelayedScaling where
  fp8_format : Option Fp8Format
  amax_history_len : Option Nat
  amax_compute_algo : Option String
  deriving DecidableEq, Repr

/-- The model as `apply_fp8_autowrap` sees it: an object identity `mid`, its
parameter storages, and its `forward` binding, embedded as the stack of
`fp8_autocast(enabled=True, fp8_recipe=...)` context wrappers applied
around the original forward (empty stack = the original forward). -/
structure WModel where
  mid : Nat
  params : List (String × Tensor)
  forwardWrappers : List DelayedScaling
  deriving DecidableEq, Repr

/-- The empty kwargs dictionary used when `fp8_recipe_handler is None`. -/
def emptyKwargs : RecipeKwargs :=
  { fp8_format := none, amax_history_len := none, amax_compute_algo := none }

/-- `apply_fp8_autowrap(model, fp8_recipe_handler)`: performs
`import transformer_engine.common.recipe` directly — with no
`is_fp8_available` guard — so an absent kernel library surfaces as the
import's `ModuleNotFoundError`; then resolves `kwargs["fp8_format"]` through
the `Format` enum when present, builds the `DelayedScaling` recipe, rebinds
`model.forward` to the `fp8_autocast`-wrapped original, and returns the same
model instance. -/
def apply_fp8_autowrap (fp8_available : Fp8Available) (model : WModel)
    (fp8_recipe_handler : Option RecipeKwargs) : Except Err WModel :=
  if fp8_available = false then
    .error (.moduleNotFoundError "transformer_engine")
  else
    let kwargs : RecipeKwargs :=
      match fp8_recipe_handler with
      | some h => h
      | none => emptyKwargs
    match kwargs.fp8_format with
    | some s =>
      match formatOfString s with
      | none => .error (.attributeError ("type object Format has no attribute " ++ s))
      | some fmt =>
        let fp8_recipe : DelayedScaling :=
          { fp8_format := some fmt, amax_history_len := kwargs.amax_history_len,
            amax_compute_algo := kwargs.amax_compute_algo }
        .ok { model with forwardWrappers := fp8_recipe :: model.forwardWrappers }
    | none =>
      let fp8_recipe : DelayedScaling :=
        { fp8_format := none, amax_history_len := kwargs.amax_history_len,
          amax_compute_algo := kwargs.amax_compute_algo }
      .ok { model with forwardWrappers := fp8_recipe :: model.forwardWrappers }

/-- The kwargs the guard of `apply_fp8_autowrap`'s format translation sees:
the handler's kwargs, or the empty dictionary for `None`. -/
def kwargsOf (fp8_recipe_handler : Option RecipeKwargs) : RecipeKwargs :=
  match fp8_recipe_handler with
  | some h => h
  | none => emptyKwargs

/-- The `fp8_format` entry, if present, names a member of the `Format`
enum (so `getattr` succeeds). -/
def formatResolvable (fp8_recipe_handler : Option RecipeKwargs) : Bool :=
  match (kwargsOf fp8_recipe_handler).fp8_format with
  | some s => (formatOfString s).isSome
  | none => true

/-- The recipe `apply_fp8_autowrap` constructs from a handler's kwargs:
the string format key resolved through the enum, the other options passed
through. -/
def autowrapRecipe (fp8_recipe_handler : Option RecipeKwargs) : DelayedScaling :=
  { fp8_format := (kwargsOf fp8_recipe_handler).fp8_format.bind formatOfString,
    amax_history_len := (kwargsOf fp8_recipe_handler).amax_history_len,
    amax_compute_algo := (kwargsOf fp8_recipe_handler).amax_compute_algo }

/-! ### The verification driver (`non_distributed.py`) -/

/-- Accuracy and F1 as computed by the external metric service. Metric values
are only compared (`>` and `==`), never computed with, so exact rationals
stand in for the floats. -/
structure MetricPair where
  accuracy : Rat
  f1 : Rat
  deriving DecidableEq, Repr

/-- Modelled from the spec: the pre- and post-training evaluation results a
training path produces. The training itself (`get_training_utilities`,
`evaluate_model`, the optimizer steps) is external to this fragment
(`experiment_setup`, `evaluate`, torch), so a path's numeric outcome is an
oracle; what this fragment owns — and what is embedded below — is the
orchestration and the assertions run over these outcomes (spec §4.4, §8). -/
structure TrainOutcome where
  base : MetricPair
  trained : MetricPair
  deriving DecidableEq, Repr

/-- Observable setup effects of a training path that the claims mention:
seeding, loading the fixed pretrained model, and the number of passes over
the training set. -/
inductive DriverEvent where
  | setSeed (n : Nat)
  | loadModel (name : String)
  | trainEpochs (n : Nat)
  deriving DecidableEq, Repr

/-- `MODEL_NAME = "bert-base-cased"`. -/
def MODEL_NAME : String := "bert-base-cased"

/-- The setup effects both `train_baseline` and `train_integration` perform:
`set_seed(42)`, `get_training_utilities(MODEL_NAME, ...)`, and a single
`for batch in train_dataloader` pass (one epoch). -/
def trainPathEvents : List DriverEvent :=
  [.setSeed 42, .loadModel MODEL_NAME, .trainEpochs 1]

/-- `train_baseline()`: seed, build, convert and train by hand, evaluate
before and after, then `assert` post-training accuracy and F1 strictly
exceed the pre-training values; returns both metric pairs on success,
terminates with `AssertionError` otherwise. -/
def train_baseline (outcome : TrainOutcome) :
    List DriverEvent × Except Err (MetricPair × MetricPair) :=
  (trainPathEvents,
    if outcome.trained.accuracy > outcome.base.accuracy then
      if outcome.trained.f1 > outcome.base.f1 then
        .ok (outcome.base, outcome.trained)
      else .error (.assertionError "F1 score should be higher for the trained model")
    else .error (.assertionError "Accuracy should be higher for the trained model"))

/-- `train_integration()`: the accelerator-managed path; identical setup
effects and identical trailing assertions over its own outcomes. -/
def train_integration (outcome : TrainOutcome) :
    List DriverEvent × Except Err (MetricPair × MetricPair) :=
  (trainPathEvents,
    if outcome.trained.accuracy > outcome.base.accuracy then
      if outcome.trained.f1 > outcome.base.f1 then
        .ok (outcome.base, outcome.trained)
      else .error (.assertionError "F1 score should be higher for the trained model")
    else .error (.assertionError "Accuracy should be higher for the trained model"))

/-- The `__main__` block: run the baseline path, then the managed path, then
assert the four metric pairs are pairwise equal; the first violated
comparison terminates the process with `AssertionError`. The first component
collects the setup effects the executed paths performed. -/
def driver_main (baselineOutcome integrationOutcome : TrainOutcome) :
    List DriverEvent × Except Err ((MetricPair × MetricPair) × (MetricPair × MetricPair)) :=
  match (train_baseline baselineOutcome).2 with
  | .error e => ((train_baseline baselineOutcome).1, .error e)
  | .ok (baseline_not_trained, baseline_trained) =>
    match (train_integration integrationOutcome).2 with
    | .error e =>
        ((train_baseline baselineOutcome).1 ++ (train_integration integrationOutcome).1,
         .error e)
    | .ok (accelerator_not_trained, accelerator_trained) =>
      ((train_baseline baselineOutcome).1 ++ (train_integration integrationOutcome).1,
        if baseline_not_trained.accuracy = accelerator_not_trained.accuracy then
          if baseline_not_trained.f1 = accelerator_not_trained.f1 then
            if baseline_trained.accuracy = accelerator_trained.accuracy then
              if baseline_trained.f1 = accelerator_trained.f1 then
                .ok ((baseline_not_trained, baseline_trained),
                     (accelerator_not_trained, accelerator_trained))
              else .error (.assertionError
                "F1 score should be the same for the baseline and accelerator")
            else .error (.assertionError
              "Accuracy should be the same for the baseline and accelerator")
          else .error (.assertionError
            "F1 score should be the same for the baseline and accelerator")
        else .error (.assertionError
          "Accuracy should be the same for the baseline and accelerator"))

/-! ### Replacement-faithfulness predicates (spec §4.1's preservation contract) -/

/-- A `te.Linear` built from an `nn.Linear` (or vice versa) is a faithful
replacement relative to allocation counter `ctr` when it preserves the
feature dimensions, the presence of a bias, the parameter dtype (the bias is
created in the weight's dtype, `params_dtype`), and the exact parameter
values, while its storages are freshly allocated (`ctr ≤ tid`) — copies, not
aliases, of any tensor existing before the call (all of which have
`tid < ctr`). -/
def teLinearFaithful (ctr : Nat) (d d' : LinearData) : Bool :=
  decide (d'.in_features = d.in_features ∧ d'.out_features = d.out_features ∧
    d'.weight.dtype = d.weight.dtype ∧ d'.weight.vals = d.weight.vals ∧
    ctr ≤ d'.weight.tid ∧
    d'.bias.isSome = d.bias.isSome ∧
    (d'.bias.map fun b => b.vals) = (d.bias.map fun b => b.vals) ∧
    (d'.bias.all fun b => decide (b.dtype = d.weight.dtype)) = true ∧
    (d'.bias.all fun b => decide (ctr ≤ b.tid)) = true)

/-- Faithful normalization replacement: first normalized dimension, epsilon,
dtype and exact weight/bias values preserved, storages freshly allocated. -/
def teLayerNormFaithful (ctr : Nat) (d d' : LayerNormData) : Bool :=
  decide (d'.normalized_shape = [d.normalized_shape.headD 0] ∧ d'.eps = d.eps ∧
    d'.weight.dtype = d.weight.dtype ∧ d'.weight.vals = d.weight.vals ∧
    ctr ≤ d'.weight.tid ∧
    d'.bias.dtype = d.weight.dtype ∧ d'.bias.vals = d.bias.vals ∧
    ctr ≤ d'.bias.tid)

mutual
/-- Node-by-node conversion contract: every node of the output tree is either
exactly the input node (untouched), a faithful optimized replacement of it
(feature dimensions, bias presence, dtype and values preserved; storages
freshly allocated), or the same composite rebuilt over preserved
children. -/
inductive NodePreserved (ctr : Nat) : Module → Module → Prop where
  | unchanged (m : Module) : NodePreserved ctr m m
  | linear {d d' : LinearData} :
      teLinearFaithful ctr d d' = true → NodePreserved ctr (.nnLinear d) (.teLinear d')
  | layerNorm {d d' : LayerNormData} :
      teLayerNormFaithful ctr d d' = true → NodePreserved ctr (.nnLayerNorm d) (.teLayerNorm d')
  | transformer {cs cs' : Children} :
      ChildrenPreserved ctr cs cs' → NodePreserved ctr (.teTransformerLayer cs) (.teTransformerLayer cs')
  | container {cs cs' : Children} :
      ChildrenPreserved ctr cs cs' → NodePreserved ctr (.container cs) (.container cs')

/-- Pointwise lifting of `NodePreserved` to named children lists: the tree
topology and the child names are unchanged. -/
inductive ChildrenPreserved (ctr : Nat) : Children → Children → Prop where
  | nil : ChildrenPreserved ctr .nil .nil
  | cons (n : String) {m m' : Module} {r r' : Children} :
      NodePreserved ctr m m' → ChildrenPreserved ctr r r' →
      ChildrenPreserved ctr (.cons n m r) (.cons n m' r')
end

/-- `apply_fp8_autowrap` result selector: did the call fail through the
explicit `is_fp8_available` guard's `ImportError`? -/
def resultFailsViaGuard {α : Type} : Except Err α → Bool
  | .error (.importErrorGuard _) => true
  | _ => false

/-- Whether a result is any Python `ImportError` — the explicit guard raise
or a failed import's `ModuleNotFoundError` (a subclass of `ImportError`). -/
def isImportErrorResult {α : Type} : Except Err α → Bool
  | .error (.importErrorGuard _) => true
  | .error (.moduleNotFoundError _) => true
  | _ => false

/-! ### Concrete fixtures -/

/-- An 8×8 weight: both dimensions fail the multiple-of-16 constraint. -/
def tW8 : Tensor := { tid := 0, shape := [8, 8], dtype := .float32, vals := [1] }

/-- An incompatible linear layer (8 in, 8 out). -/
def linBad : LinearData := { in_features := 8, out_features := 8, weight := tW8, bias := none }

/-- A 16×16 weight: compatible with the alignment constraint. -/
def tW16 : Tensor := { tid := 1, shape := [16, 16], dtype := .float32, vals := [2] }

/-- A compatible linear layer (16 in, 16 out), no bias. -/
def linGood : LinearData := { in_features := 16, out_features := 16, weight := tW16, bias := none }

/-- A compatible linear layer with a bias, for the round-trip run. -/
def linRt : LinearData :=
  { in_features := 16, out_features := 16,
    weight := { tid := 0, shape := [16, 16], dtype := .float32, vals := [5] },
    bias := some { tid := 1, shape := [16], dtype := .float32, vals := [7] } }

/-- A model holding one compatible linear child. -/
def rtTree : Module := .container (.cons "fc" (.nnLinear linRt) .nil)

/-- The result of converting `rtTree` with allocation counter 10: the child
replaced by a `te.Linear` with freshly allocated, value-equal storages. -/
def rtTreeTe : Module :=
  .container (.cons "fc"
    (.teLinear
      { in_features := 16, out_features := 16,
        weight := { tid := 10, shape := [16, 16], dtype := .float32, vals := [5] },
        bias := some { tid := 11, shape := [16], dtype := .float32, vals := [7] } }) .nil)

/-- A model holding one optimized normalization child (for the reverse
direction). -/
def lnTreeTe : Module :=
  .container (.cons "ln"
    (.teLayerNorm
      { normalized_shape := [16], eps := 1 / 100000,
        weight := { tid := 2, shape := [16], dtype := .float32, vals := [3] },
        bias := { tid := 3, shape := [16], dtype := .float32, vals := [4] } }) .nil)

/-- A tree whose depth-first traversal meets the incompatible linear (inside
child `a`) before the compatible linear (child `b` of the root). -/
def exTree : Module :=
  .container (.cons "a" (.container (.cons "bad" (.nnLinear linBad) .nil))
    (.cons "b" (.nnLinear linGood) .nil))

/-- What `convert_model` makes of `exTree` from counter 100: the subtree under
`a` is abandoned untouched, yet `b` — visited after the abort — is still
converted. -/
def exTreeConverted : Module :=
  .container (.cons "a" (.container (.cons "bad" (.nnLinear linBad) .nil))
    (.cons "b"
      (.teLinear
        { in_features := 16, out_features := 16,
          weight := { tid := 100, shape := [16, 16], dtype := .float32, vals := [2] },
          bias := none }) .nil))

/-- A model instance for the autowrap runs. -/
def exW : WModel :=
  { mid := 7, params := [("weight", tW16)], forwardWrappers := [] }

/-- The driver's recipe kwargs from `train_integration`:
`{"fp8_format": "HYBRID", "amax_history_len": 32, "amax_compute_algo": "max"}`. -/
def exRecipeKwargs : RecipeKwargs :=
  { fp8_format := some "HYBRID", amax_history_len := some 32, amax_compute_algo := some "max" }

/-- A training outcome whose post-training metrics strictly improve. -/
def exOutcome : TrainOutcome :=
  { base := { accuracy := 1/2, f1 := 1/2 }, trained := { accuracy := 3/4, f1 := 4/5 } }

/-! ### Evaluation lemmas for the embedded constructor signatures -/

/-- `te.Linear` accepts the keywords the conversion passes. -/
@[simp] theorem checkKwargs_teLinear :
    checkKwargs teLinearKwargs ["bias", "params_dtype"] = .ok () := rfl

/-- `te.LayerNorm` accepts the keywords the conversion passes. -/
@[simp] theorem checkKwargs_teLayerNorm :
    checkKwargs teLayerNormKwargs ["eps", "params_dtype"] = .ok () := rfl

/-- `torch.nn.Linear` rejects `params_dtype`. -/
@[simp] theorem checkKwargs_nnLinear :
    checkKwargs nnLinearKwargs ["bias", "params_dtype"]
      = .error (.typeError "got an unexpected keyword argument params_dtype") := rfl

/-- `torch.nn.LayerNorm` rejects `params_dtype`. -/
@[simp] theorem checkKwargs_nnLayerNorm :
    checkKwargs nnLayerNormKwargs ["eps", "params_dtype"]
      = .error (.typeError "got an unexpected keyword argument params_dtype") := rfl

/-! ### Structural lemmas about the preservation predicates -/

/-- An untouched children list is preserved. -/
theorem childrenPreserved_refl (ctr : Nat) : ∀ (l : Children), ChildrenPreserved ctr l l
  | .nil => .nil
  | .cons n m r => .cons n (.unchanged m) (childrenPreserved_refl ctr r)

/-- Weakening the freshness bound of a faithful linear replacement. -/
theorem teLinearFaithful_mono {c₁ c₂ : Nat} (hc : c₁ ≤ c₂) (d d' : LinearData)
    (h : teLinearFaithful c₂ d d' = true) : teLinearFaithful c₁ d d' = true := by
  simp only [teLinearFaithful, decide_eq_true_eq] at h ⊢
  obtain ⟨h1, h2, h3, h4, h5, h6, h7, h8, h9⟩ := h
  refine ⟨h1, h2, h3, h4, le_trans hc h5, h6, h7, h8, ?_⟩
  cases hb : d'.bias with
  | none => simp [Option.all]
  | some b =>
      rw [hb] at h9
      simp only [Option.all, decide_eq_true_eq] at h9 ⊢
      omega

/-- Weakening the freshness bound of a faithful normalization replacement. -/
theorem teLayerNormFaithful_mono {c₁ c₂ : Nat} (hc : c₁ ≤ c₂) (d d' : LayerNormData)
    (h : teLayerNormFaithful c₂ d d' = true) : teLayerNormFaithful c₁ d d' = true := by
  simp only [teLayerNormFaithful, decide_eq_true_eq] at h ⊢
  obtain ⟨h1, h2, h3, h4, h5, h6, h7, h8⟩ := h
  exact ⟨h1, h2, h3, h4, le_trans hc h5, h6, h7, le_trans hc h8⟩

mutual
/-- Weakening the freshness bound of the preservation contract: preserved
relative to a later counter, then preserved relative to any earlier one. -/
theorem nodePreserved_mono {c₁ c₂ : Nat} (hc : c₁ ≤ c₂) {m m' : Module} :
    NodePreserved c₂ m m' → NodePreserved c₁ m m'
  | .unchanged m => .unchanged m
  | .linear hf => .linear (teLinearFaithful_mono hc _ _ hf)
  | .layerNorm hf => .layerNorm (teLayerNormFaithful_mono hc _ _ hf)
  | .transformer hcs => .transformer (childrenPreserved_mono hc hcs)
  | .container hcs => .container (childrenPreserved_mono hc hcs)

/-- Counter-weakening for children lists. -/
theorem childrenPreserved_mono {c₁ c₂ : Nat} (hc : c₁ ≤ c₂) {l l' : Children} :
    ChildrenPreserved c₂ l l' → ChildrenPreserved c₁ l l'
  | .nil => .nil
  | .cons n hm hr => .cons n (nodePreserved_mono hc hm) (childrenPreserved_mono hc hr)
end

/-- The allocation counter only advances across a `te.Linear` construction. -/
theorem mkTeLinear_snd (d : LinearData) (ctr : Nat) : ctr ≤ (mkTeLinear d ctr).2 := by
  unfold mkTeLinear
  rcases d.bias with _ | b <;> simp

/-- The `te.Linear` built by the forward branch is a faithful replacement of
the source layer relative to the counter it was built at. -/
theorem mkTeLinear_preserved (d : LinearData) (ctr : Nat) :
    NodePreserved ctr (.nnLinear d) (mkTeLinear d ctr).1 := by
  rcases hb : d.bias with _ | b
  · simp only [mkTeLinear, hb]
    exact .linear (by simp [teLinearFaithful, hb, Option.all])
  · simp only [mkTeLinear, hb]
    exact .linear (by simp [teLinearFaithful, hb, Option.all])

/-- The allocation counter only advances across a `te.LayerNorm`
construction. -/
theorem mkTeLayerNorm_snd (d : LayerNormData) (ctr : Nat) : ctr ≤ (mkTeLayerNorm d ctr).2 := by
  simp [mkTeLayerNorm]

/-- The `te.LayerNorm` built by the forward branch is a faithful replacement
of the source layer relative to the counter it was built at. -/
theorem mkTeLayerNorm_preserved (d : LayerNormData) (ctr : Nat) :
    NodePreserved ctr (.nnLayerNorm d) (mkTeLayerNorm d ctr).1 := by
  simp only [mkTeLayerNorm]
  exact .layerNorm (by simp [teLayerNormFaithful])

/-- Main preservation invariant of the conversion loop: whenever
`convert_children` returns normally, the allocation counter has not
decreased and every child of the result is the untouched original, a
faithful replacement, or a composite rebuilt over preserved children. -/
theorem convert_children_preserves (toTE cl cn : Bool) :
    ∀ (ctr : Nat) (l l' : Children) (ctr₂ : Nat),
      convert_children toTE cl cn ctr l = .ok (l', ctr₂) →
      ctr ≤ ctr₂ ∧ ChildrenPreserved ctr l l'
  | ctr, .nil, l', ctr₂, h => by
      simp only [convert_children, Except.ok.injEq, Prod.mk.injEq] at h
      obtain ⟨h1, h2⟩ := h
      subst h1; subst h2
      exact ⟨Nat.le_refl _, .nil⟩
  | ctr, .cons name (.nnLinear d) rest, l', ctr₂, h => by
      simp only [convert_children] at h
      by_cases hcnd : (toTE && cl) = true
      · rw [if_pos hcnd] at h
        by_cases hdim : (d.weight.shape.any fun p => p % 16 != 0) = true
        · rw [if_pos hdim] at h
          simp only [Except.ok.injEq, Prod.mk.injEq] at h
          obtain ⟨h1, h2⟩ := h
          subst h1; subst h2
          exact ⟨Nat.le_refl _, childrenPreserved_refl ctr _⟩
        · rw [if_neg hdim] at h
          simp only [checkKwargs_teLinear] at h
          rcases hmk : mkTeLinear d ctr with ⟨teMod, c₁⟩
          simp only [hmk] at h
          cases hrec : convert_children toTE cl cn c₁ rest with
          | error e => rw [hrec] at h; exact Except.noConfusion h
          | ok p =>
              rcases p with ⟨rest', c₂⟩
              simp only [hrec, Except.ok.injEq, Prod.mk.injEq] at h
              obtain ⟨h1, h2⟩ := h
              subst h1; subst h2
              obtain ⟨ihle, ihp⟩ := convert_children_preserves toTE cl cn c₁ rest rest' _ hrec
              have hle : ctr ≤ c₁ := by
                have := mkTeLinear_snd d ctr
                rw [hmk] at this
                exact this
              have hnode : NodePreserved ctr (.nnLinear d) teMod := by
                have := mkTeLinear_preserved d ctr
                rw [hmk] at this
                exact this
              exact ⟨Nat.le_trans hle ihle, .cons name hnode (childrenPreserved_mono hle ihp)⟩
      · rw [if_neg hcnd] at h
        cases hrec : convert_children toTE cl cn ctr rest with
        | error e => rw [hrec] at h; exact Except.noConfusion h
        | ok p =>
            rcases p with ⟨rest', c₂⟩
            simp only [hrec, Except.ok.injEq, Prod.mk.injEq] at h
            obtain ⟨h1, h2⟩ := h
            subst h1; subst h2
            obtain ⟨ihle, ihp⟩ := convert_children_preserves toTE cl cn ctr rest rest' _ hrec
            exact ⟨ihle, .cons name (.unchanged _) ihp⟩
  | ctr, .cons name (.nnLayerNorm d) rest, l', ctr₂, h => by
      simp only [convert_children] at h
      by_cases hcnd : (toTE && cn) = true
      · rw [if_pos hcnd] at h
        simp only [checkKwargs_teLayerNorm] at h
        rcases hmk : mkTeLayerNorm d ctr with ⟨teMod, c₁⟩
        simp only [hmk] at h
        cases hrec : convert_children toTE cl cn c₁ rest with
        | error e => rw [hrec] at h; exact Except.noConfusion h
        | ok p =>
            rcases p with ⟨rest', c₂⟩
            simp only [hrec, Except.ok.injEq, Prod.mk.injEq] at h
            obtain ⟨h1, h2⟩ := h
            subst h1; subst h2
            obtain ⟨ihle, ihp⟩ := convert_children_preserves toTE cl cn c₁ rest rest' _ hrec
            have hle : ctr ≤ c₁ := by
              have := mkTeLayerNorm_snd d ctr
              rw [hmk] at this
              exact this
            have hnode : NodePreserved ctr (.nnLayerNorm d) teMod := by
              have := mkTeLayerNorm_preserved d ctr
              rw [hmk] at this
              exact this
            exact ⟨Nat.le_trans hle ihle, .cons name hnode (childrenPreserved_mono hle ihp)⟩
      · rw [if_neg hcnd] at h
        cases hrec : convert_children toTE cl cn ctr rest with
        | error e => rw [hrec] at h; exact Except.noConfusion h
        | ok p =>
            rcases p with ⟨rest', c₂⟩
            simp only [hrec, Except.ok.injEq, Prod.mk.injEq] at h
            obtain ⟨h1, h2⟩ := h
            subst h1; subst h2
            obtain ⟨ihle, ihp⟩ := convert_children_preserves toTE cl cn ctr rest rest' _ hrec
            exact ⟨ihle, .cons name (.unchanged _) ihp⟩
  | ctr, .cons name (.teLinear d) rest, l', ctr₂, h => by
      simp only [convert_children] at h
      by_cases hcnd : (!toTE && cl) = true
      · rw [if_pos hcnd] at h
        simp only [checkKwargs_nnLinear] at h
        exact Except.noConfusion h
      · rw [if_neg hcnd] at h
        cases hrec : convert_children toTE cl cn ctr rest with
        | error e => rw [hrec] at h; exact Except.noConfusion h
        | ok p =>
            rcases p with ⟨rest', c₂⟩
            simp only [hrec, Except.ok.injEq, Prod.mk.injEq] at h
            obtain ⟨h1, h2⟩ := h
            subst h1; subst h2
            obtain ⟨ihle, ihp⟩ := convert_children_preserves toTE cl cn ctr rest rest' _ hrec
            exact ⟨ihle, .cons name (.unchanged _) ihp⟩
  | ctr, .cons name (.teLayerNorm d) rest, l', ctr₂, h => by
      simp only [convert_children] at h
      by_cases hcnd : (!toTE && cn) = true
      · rw [if_pos hcnd] at h
        simp only [checkKwargs_nnLayerNorm] at h
        exact Except.noConfusion h
      · rw [if_neg hcnd] at h
        cases hrec : convert_children toTE cl cn ctr rest with
        | error e => rw [hrec] at h; exact Except.noConfusion h
        | ok p =>
            rcases p with ⟨rest', c₂⟩
            simp only [hrec, Except.ok.injEq, Prod.mk.injEq] at h
            obtain ⟨h1, h2⟩ := h
            subst h1; subst h2
            obtain ⟨ihle, ihp⟩ := convert_children_preserves toTE cl cn ctr rest rest' _ hrec
            exact ⟨ihle, .cons name (.unchanged _) ihp⟩
  | ctr, .cons name (.teTransformerLayer cs) rest, l', ctr₂, h => by
      simp only [convert_children] at h
      cases hrec1 : convert_children toTE cl cn ctr cs with
      | error e => rw [hrec1] at h; exact Except.noConfusion h
      | ok p =>
          rcases p with ⟨cs', c₁⟩
          simp only [hrec1] at h
          cases hrec2 : convert_children toTE cl cn c₁ rest with
          | error e => rw [hrec2] at h; exact Except.noConfusion h
          | ok q =>
              rcases q with ⟨rest', c₂⟩
              simp only [hrec2, Except.ok.injEq, Prod.mk.injEq] at h
              obtain ⟨h1, h2⟩ := h
              subst h1; subst h2
              obtain ⟨ihle1, ihp1⟩ := convert_children_preserves toTE cl cn ctr cs cs' _ hrec1
              obtain ⟨ihle2, ihp2⟩ := convert_children_preserves toTE cl cn c₁ rest rest' _ hrec2
              exact ⟨Nat.le_trans ihle1 ihle2,
                .cons name (.transformer ihp1) (childrenPreserved_mono ihle1 ihp2)⟩
  | ctr, .cons name (.container cs) rest, l', ctr₂, h => by
      simp only [convert_children] at h
      cases hrec1 : convert_children toTE cl cn ctr cs with
      | error e => rw [hrec1] at h; exact Except.noConfusion h
      | ok p =>
          rcases p with ⟨cs', c₁⟩
          simp only [hrec1] at h
          cases hrec2 : convert_children toTE cl cn c₁ rest with
          | error e => rw [hrec2] at h; exact Except.noConfusion h
          | ok q =>
              rcases q with ⟨rest', c₂⟩
              simp only [hrec2, Except.ok.injEq, Prod.mk.injEq] at h
              obtain ⟨h1, h2⟩ := h
              subst h1; subst h2
              obtain ⟨ihle1, ihp1⟩ := convert_children_preserves toTE cl cn ctr cs cs' _ hrec1
              obtain ⟨ihle2, ihp2⟩ := convert_children_preserves toTE cl cn c₁ rest rest' _ hrec2
              exact ⟨Nat.le_trans ihle1 ihle2,
                .cons name (.container ihp1) (childrenPreserved_mono ihle1 ihp2)⟩

/-- The conversion loop can fail (through a constructor-signature rejection)
but only ever with a `TypeError`, never with a Python `ImportError`. -/
theorem convert_children_error_typeError (toTE cl cn : Bool) :
    ∀ (ctr : Nat) (l : Children) (e : Err),
      convert_children toTE cl cn ctr l = .error e → ∃ msg, e = .typeError msg
  | ctr, .nil, e, h => by
      simp only [convert_children] at h
      exact Except.noConfusion h
  | ctr, .cons name (.nnLinear d) rest, e, h => by
      simp only [convert_children] at h
      by_cases hcnd : (toTE && cl) = true
      · rw [if_pos hcnd] at h
        by_cases hdim : (d.weight.shape.any fun p => p % 16 != 0) = true
        · rw [if_pos hdim] at h
          exact Except.noConfusion h
        · rw [if_neg hdim] at h
          simp only [checkKwargs_teLinear] at h
          rcases hmk : mkTeLinear d ctr with ⟨teMod, c₁⟩
          simp only [hmk] at h
          cases hrec : convert_children toTE cl cn c₁ rest with
          | error e' =>
              simp only [hrec, Except.error.injEq] at h
              obtain ⟨msg, hmsg⟩ := convert_children_error_typeError toTE cl cn c₁ rest e' hrec
              subst h
              exact ⟨msg, hmsg⟩
          | ok p =>
              rcases p with ⟨rest', c₂⟩
              simp only [hrec] at h
              exact Except.noConfusion h
      · rw [if_neg hcnd] at h
        cases hrec : convert_children toTE cl cn ctr rest with
        | error e' =>
            simp only [hrec, Except.error.injEq] at h
            obtain ⟨msg, hmsg⟩ := convert_children_error_typeError toTE cl cn ctr rest e' hrec
            subst h
            exact ⟨msg, hmsg⟩
        | ok p =>
            rcases p with ⟨rest', c₂⟩
            simp only [hrec] at h
            exact Except.noConfusion h
  | ctr, .cons name (.nnLayerNorm d) rest, e, h => by
      simp only [convert_children] at h
      by_cases hcnd : (toTE && cn) = true
      · rw [if_pos hcnd] at h
        simp only [checkKwargs_teLayerNorm] at h
        rcases hmk : mkTeLayerNorm d ctr with ⟨teMod, c₁⟩
        simp only [hmk] at h
        cases hrec : convert_children toTE cl cn c₁ rest with
        | error e' =>
            simp only [hrec, Except.error.injEq] at h
            obtain ⟨msg, hmsg⟩ := convert_children_error_typeError toTE cl cn c₁ rest e' hrec
            subst h
            exact ⟨msg, hmsg⟩
        | ok p =>
            rcases p with ⟨rest', c₂⟩
            simp only [hrec] at h
            exact Except.noConfusion h
      · rw [if_neg hcnd] at h
        cases hrec : convert_children toTE cl cn ctr rest with
        | error e' =>
            simp only [hrec, Except.error.injEq] at h
            obtain ⟨msg, hmsg⟩ := convert_children_error_typeError toTE cl cn ctr rest e' hrec
            subst h
            exact ⟨msg, hmsg⟩
        | ok p =>
            rcases p with ⟨rest', c₂⟩
            simp only [hrec] at h
            exact Except.noConfusion h
  | ctr, .cons name (.teLinear d) rest, e, h => by
      simp only [convert_children] at h
      by_cases hcnd : (!toTE && cl) = true
      · rw [if_pos hcnd] at h
        simp only [checkKwargs_nnLinear, Except.error.injEq] at h
        exact ⟨"got an unexpected keyword argument params_dtype", h.symm⟩
      · rw [if_neg hcnd] at h
        cases hrec : convert_children toTE cl cn ctr rest with
        | error e' =>
            simp only [hrec, Except.error.injEq] at h
            obtain ⟨msg, hmsg⟩ := convert_children_error_typeError toTE cl cn ctr rest e' hrec
            subst h
            exact ⟨msg, hmsg⟩
        | ok p =>
            rcases p with ⟨rest', c₂⟩
            simp only [hrec] at h
            exact Except.noConfusion h
  | ctr, .cons name (.teLayerNorm d) rest, e, h => by
      simp only [convert_children] at h
      by_cases hcnd : (!toTE && cn) = true
      · rw [if_pos hcnd] at h
        simp only [checkKwargs_nnLayerNorm, Except.error.injEq] at h
        exact ⟨"got an unexpected keyword argument params_dtype", h.symm⟩
      · rw [if_neg hcnd] at h
        cases hrec : convert_children toTE cl cn ctr rest with
        | error e' =>
            simp only [hrec, Except.error.injEq] at h
            obtain ⟨msg, hmsg⟩ := convert_children_error_typeError toTE cl cn ctr rest e' hrec
            subst h
            exact ⟨msg, hmsg⟩
        | ok p =>
            rcases p with ⟨rest', c₂⟩
            simp only [hrec] at h
            exact Except.noConfusion h
  | ctr, .cons name (.teTransformerLayer cs) rest, e, h => by
      simp only [convert_children] at h
      cases hrec1 : convert_children toTE cl cn ctr cs with
      | error e' =>
          simp only [hrec1, Except.error.injEq] at h
          obtain ⟨msg, hmsg⟩ := convert_children_error_typeError toTE cl cn ctr cs e' hrec1
          subst h
          exact ⟨msg, hmsg⟩
      | ok p =>
          rcases p with ⟨cs', c₁⟩
          simp only [hrec1] at h
          cases hrec2 : convert_children toTE cl cn c₁ rest with
          | error e' =>
              simp only [hrec2, Except.error.injEq] at h
              obtain ⟨msg, hmsg⟩ := convert_children_error_typeError toTE cl cn c₁ rest e' hrec2
              subst h
              exact ⟨msg, hmsg⟩
          | ok q =>
              rcases q with ⟨rest', c₂⟩
              simp only [hrec2] at h
              exact Except.noConfusion h
  | ctr, .cons name (.container cs) rest, e, h => by
      simp only [convert_children] at h
      cases hrec1 : convert_children toTE cl cn ctr cs with
      | error e' =>
          simp only [hrec1, Except.error.injEq] at h
          obtain ⟨msg, hmsg⟩ := convert_children_error_typeError toTE cl cn ctr cs e' hrec1
          subst h
          exact ⟨msg, hmsg⟩
      | ok p =>
          rcases p with ⟨cs', c₁⟩
          simp only [hrec1] at h
          cases hrec2 : convert_children toTE cl cn c₁ rest with
          | error e' =>
              simp only [hrec2, Except.error.injEq] at h
              obtain ⟨msg, hmsg⟩ := convert_children_error_typeError toTE cl cn c₁ rest e' hrec2
              subst h
              exact ⟨msg, hmsg⟩
          | ok q =>
              rcases q with ⟨rest', c₂⟩
              simp only [hrec2] at h
              exact Except.noConfusion h

/-- An error escaping `convert_model` with the library available is a
`TypeError`, never an `ImportError`. -/
theorem convert_model_error_typeError (model : Module) (toTE cl cn : Bool) (ctr : Nat) (e : Err)
    (h : convert_model true model toTE cl cn ctr = .error e) : ∃ msg, e = .typeError msg := by
  cases model with
  | nnLinear d => exact Except.noConfusion h
  | nnLayerNorm d => exact Except.noConfusion h
  | teLinear d => exact Except.noConfusion h
  | teLayerNorm d => exact Except.noConfusion h
  | teTransformerLayer cs =>
      simp only [convert_model, Bool.true_eq_false, if_false] at h
      cases hrec : convert_children toTE cl cn ctr cs with
      | error e' =>
          simp only [hrec, Except.error.injEq] at h
          obtain ⟨msg, hmsg⟩ := convert_children_error_typeError toTE cl cn ctr cs e' hrec
          subst h
          exact ⟨msg, hmsg⟩
      | ok p =>
          rcases p with ⟨cs', c₁⟩
          simp only [hrec] at h
          exact Except.noConfusion h
  | container cs =>
      simp only [convert_model, Bool.true_eq_false, if_false] at h
      cases hrec : convert_children toTE cl cn ctr cs with
      | error e' =>
          simp only [hrec, Except.error.injEq] at h
          obtain ⟨msg, hmsg⟩ := convert_children_error_typeError toTE cl cn ctr cs e' hrec
          subst h
          exact ⟨msg, hmsg⟩
      | ok p =>
          rcases p with ⟨cs', c₁⟩
          simp only [hrec] at h
          exact Except.noConfusion h

/-- With the library available, `convert_model` never surfaces any Python
`ImportError` (neither the guard raise nor a failed import). -/
theorem convert_model_no_import (model : Module) (toTE cl cn : Bool) (ctr : Nat) :
    isImportErrorResult (convert_model true model toTE cl cn ctr) = false := by
  cases hr : convert_model true model toTE cl cn ctr with
  | ok p => rfl
  | error e =>
      obtain ⟨msg, hmsg⟩ := convert_model_error_typeError model toTE cl cn ctr e hr
      subst hmsg
      rfl

/-! ### The modules scan versus the node-occurrence relation -/

/-- A positive scan of a children list exhibits an optimized node occurring
in one of the children. -/
theorem anyTe_occurs : ∀ (cs : Children), anyTeChildren cs = true →
    ∃ x c, ChildMem c cs ∧ Occurs x c ∧ isTeLayer x = true
  | .nil, h => Bool.noConfusion h
  | .cons n (.nnLinear d) rest, h => by
      simp only [anyTeChildren] at h
      obtain ⟨x, c, hm, ho, ht⟩ := anyTe_occurs rest h
      exact ⟨x, c, .tail n _ hm, ho, ht⟩
  | .cons n (.nnLayerNorm d) rest, h => by
      simp only [anyTeChildren] at h
      obtain ⟨x, c, hm, ho, ht⟩ := anyTe_occurs rest h
      exact ⟨x, c, .tail n _ hm, ho, ht⟩
  | .cons n (.teLinear d) rest, _ =>
      ⟨.teLinear d, .teLinear d, .head n _ rest, .refl _, rfl⟩
  | .cons n (.teLayerNorm d) rest, _ =>
      ⟨.teLayerNorm d, .teLayerNorm d, .head n _ rest, .refl _, rfl⟩
  | .cons n (.teTransformerLayer cs) rest, _ =>
      ⟨.teTransformerLayer cs, .teTransformerLayer cs, .head n _ rest, .refl _, rfl⟩
  | .cons n (.container cs) rest, h => by
      simp only [anyTeChildren, Bool.or_eq_true] at h
      rcases h with h | h
      · obtain ⟨x, c, hm, ho, ht⟩ := anyTe_occurs cs h
        exact ⟨x, .container cs, .head n _ rest, .inContainer hm ho, ht⟩
      · obtain ⟨x, c, hm, ho, ht⟩ := anyTe_occurs rest h
        exact ⟨x, c, .tail n _ hm, ho, ht⟩

/-- A child whose subtree scans positive makes the whole list scan
positive. -/
theorem childMem_anyTe {c : Module} {cs : Children} (hm : ChildMem c cs)
    (hc : hasTeB c = true) : anyTeChildren cs = true := by
  induction hm with
  | head n m r =>
      cases m with
      | nnLinear d => simp [hasTeB, isTeLayer, Module.namedChildren, anyTeChildren] at hc
      | nnLayerNorm d => simp [hasTeB, isTeLayer, Module.namedChildren, anyTeChildren] at hc
      | teLinear d => simp [anyTeChildren]
      | teLayerNorm d => simp [anyTeChildren]
      | teTransformerLayer cs₀ => simp [anyTeChildren]
      | container cs₀ =>
          simp only [hasTeB, isTeLayer, Module.namedChildren, Bool.false_or] at hc
          simp only [anyTeChildren, Bool.or_eq_true]
          exact Or.inl hc
  | tail n m' hm ih =>
      cases m' with
      | nnLinear d => simpa only [anyTeChildren] using ih hc
      | nnLayerNorm d => simpa only [anyTeChildren] using ih hc
      | teLinear d => simp [anyTeChildren]
      | teLayerNorm d => simp [anyTeChildren]
      | teTransformerLayer cs₀ => simp [anyTeChildren]
      | container cs₀ =>
          simp only [anyTeChildren, Bool.or_eq_true]
          exact Or.inr (ih hc)

/-- An optimized node occurring anywhere in a tree makes the scan positive. -/
theorem occurs_hasTe {x m : Module} (ho : Occurs x m) (ht : isTeLayer x = true) :
    hasTeB m = true := by
  induction ho with
  | refl => simp [hasTeB, ht]
  | inContainer hm _ ih =>
      simp only [hasTeB, Module.namedChildren, Bool.or_eq_true]
      exact Or.inr (childMem_anyTe hm ih)
  | inTransformer hm _ ih => simp [hasTeB, isTeLayer]

/-! ### The claims -/

/-- C1: under `to_transformer_engine=True` and `_convert_linear=True`, when
the traversal of a recursive call reaches a standard linear layer some of
whose weight dimensions are not multiples of 16, the call returns
immediately: that layer stays an `nn.Linear`, every sibling after it in the
same call is returned untouched (whatever its kind), the allocation counter
does not move, and no error is raised. Stated for the per-call loop
(`convert_children`, which every level of the recursion runs) and for a
`convert_model` call whose root reaches such a layer directly. -/
theorem claim_C1 (convert_ln : Bool) (ctr : Nat) (name : String) (d : LinearData)
    (rest : Children)
    (h : d.weight.shape.any (fun p => p % 16 != 0) = true) :
    convert_children true true convert_ln ctr (.cons name (.nnLinear d) rest)
        = .ok (.cons name (.nnLinear d) rest, ctr) ∧
    convert_model true (.container (.cons name (.nnLinear d) rest)) true true convert_ln ctr
        = .ok (.container (.cons name (.nnLinear d) rest), ctr) := by
  have h1 : convert_children true true convert_ln ctr (.cons name (.nnLinear d) rest)
      = .ok (.cons name (.nnLinear d) rest, ctr) := by
    simp [convert_children, h]
  refine ⟨h1, ?_⟩
  simp only [convert_model, Bool.true_eq_false, if_false, h1]

/-- C1 witness: a concrete 8×8 linear layer is left in place together with
the compatible 16×16 linear after it in the same call. -/
theorem claim_C1_witness :
    (linBad.weight.shape.any (fun p => p % 16 != 0) = true) ∧
    (convert_children true true true 5
        (.cons "fc" (.nnLinear linBad) (.cons "good" (.nnLinear linGood) .nil))
      = .ok (.cons "fc" (.nnLinear linBad) (.cons "good" (.nnLinear linGood) .nil), 5) ∧
     convert_model true
        (.container (.cons "fc" (.nnLinear linBad) (.cons "good" (.nnLinear linGood) .nil)))
        true true true 5
      = .ok (.container (.cons "fc" (.nnLinear linBad)
          (.cons "good" (.nnLinear linGood) .nil)), 5)) :=
  ⟨rfl, claim_C1 true 5 "fc" linBad (.cons "good" (.nnLinear linGood) .nil) rfl⟩

/-- C2 counterexample: in `exTree` the incompatible linear (`a.bad`, an 8×8
weight) is met in the depth-first traversal before the compatible root child
`b`, yet converting still replaces `b` with an optimized linear: the abort
does not silence the remainder of the whole traversal. Before conversion the
tree holds no optimized layer; afterwards it does. -/
theorem claim_C2_counterexample :
    convert_model true exTree true true true 100 = .ok (exTreeConverted, 101) ∧
    anyTeChildren exTree.namedChildren = false ∧
    anyTeChildren exTreeConverted.namedChildren = true :=
  ⟨rfl, rfl, rfl⟩

/-- C2 (amended): encountering a dimension-incompatible linear layer aborts
only the remainder of the current recursive call. The parent call continues
unaffected: the subtree whose call aborted is kept exactly as it stood, and
the traversal proceeds over the following siblings as if the subtree had
been fully processed. -/
theorem claim_C2 (convert_ln : Bool) (ctr : Nat) (pname bname : String) (d : LinearData)
    (cs rest : Children)
    (h : d.weight.shape.any (fun p => p % 16 != 0) = true) :
    convert_children true true convert_ln ctr
        (.cons pname (.container (.cons bname (.nnLinear d) cs)) rest)
      = (convert_children true true convert_ln ctr rest).map
          (fun p => (.cons pname (.container (.cons bname (.nnLinear d) cs)) p.1, p.2)) := by
  cases hrec : convert_children true true convert_ln ctr rest with
  | error e => simp [convert_children, h, hrec, Except.map]
  | ok p =>
      rcases p with ⟨rest', c₂⟩
      simp [convert_children, h, hrec, Except.map]

/-- C2 witness for the amended statement: a concrete bad subtree followed by
a compatible sibling. -/
theorem claim_C2_witness :
    (linBad.weight.shape.any (fun p => p % 16 != 0) = true) ∧
    convert_children true true true 100
        (.cons "a" (.container (.cons "bad" (.nnLinear linBad) .nil))
          (.cons "b" (.nnLinear linGood) .nil))
      = (convert_children true true true 100 (.cons "b" (.nnLinear linGood) .nil)).map
          (fun p => (.cons "a" (.container (.cons "bad" (.nnLinear linBad) .nil)) p.1, p.2)) :=
  ⟨rfl, claim_C2 true 100 "a" "bad" linBad .nil (.cons "b" (.nnLinear linGood) .nil) rfl⟩

/-- C3: the round-trip law fails on this code — the forward conversion of a
compatible linear succeeds, but reverse-converting the result raises
`TypeError` because the reverse branch passes the keyword `params_dtype` to
`torch.nn.Linear`, whose constructor (`bias`, `device`, `dtype`) does not
accept it; likewise for `torch.nn.LayerNorm`. The original layer type and
values are never restored. -/
theorem claim_C3 :
    convert_model true rtTree true true true 10 = .ok (rtTreeTe, 12) ∧
    convert_model true rtTreeTe false true true 12
      = .error (.typeError "got an unexpected keyword argument params_dtype") ∧
    convert_model true lnTreeTe false true true 20
      = .error (.typeError "got an unexpected keyword argument params_dtype") :=
  ⟨rfl, rfl, rfl⟩

/-- C4: every layer `convert_model` actually replaces is replaced faithfully.
Whenever the call returns normally, the output tree is node-by-node either
the untouched input node or a faithful replacement — same in/out feature
counts, same bias presence, same parameter dtype (`params_dtype` is the
weight's dtype) and exactly equal parameter values — held in storages
freshly allocated during the call (`ctr ≤ tid`), i.e. copies, not aliases,
of any tensor that existed beforehand (all of which have `tid < ctr`). The
reverse direction never completes a replacement (see C3), so all completed
replacements are forward ones. -/
theorem claim_C4 (to_transformer_engine convert_linear convert_ln : Bool) (ctr ctr₂ : Nat)
    (model model' : Module)
    (h : convert_model true model to_transformer_engine convert_linear convert_ln ctr
          = .ok (model', ctr₂)) :
    ctr ≤ ctr₂ ∧ NodePreserved ctr model model' := by
  cases model with
  | nnLinear d =>
      simp only [convert_model, Bool.true_eq_false, if_false, Except.ok.injEq,
        Prod.mk.injEq] at h
      obtain ⟨h1, h2⟩ := h
      subst h1; subst h2
      exact ⟨Nat.le_refl _, .unchanged _⟩
  | nnLayerNorm d =>
      simp only [convert_model, Bool.true_eq_false, if_false, Except.ok.injEq,
        Prod.mk.injEq] at h
      obtain ⟨h1, h2⟩ := h
      subst h1; subst h2
      exact ⟨Nat.le_refl _, .unchanged _⟩
  | teLinear d =>
      simp only [convert_model, Bool.true_eq_false, if_false, Except.ok.injEq,
        Prod.mk.injEq] at h
      obtain ⟨h1, h2⟩ := h
      subst h1; subst h2
      exact ⟨Nat.le_refl _, .unchanged _⟩
  | teLayerNorm d =>
      simp only [convert_model, Bool.true_eq_false, if_false, Except.ok.injEq,
        Prod.mk.injEq] at h
      obtain ⟨h1, h2⟩ := h
      subst h1; subst h2
      exact ⟨Nat.le_refl _, .unchanged _⟩
  | teTransformerLayer cs =>
      simp only [convert_model, Bool.true_eq_false, if_false] at h
      cases hrec : convert_children to_transformer_engine convert_linear convert_ln ctr cs with
      | error e => simp only [hrec] at h; exact Except.noConfusion h
      | ok p =>
          rcases p with ⟨cs', c₁⟩
          simp only [hrec, Except.ok.injEq, Prod.mk.injEq] at h
          obtain ⟨h1, h2⟩ := h
          subst h1; subst h2
          obtain ⟨hle, hp⟩ := convert_children_preserves _ _ _ _ _ _ _ hrec
          exact ⟨hle, .transformer hp⟩
  | container cs =>
      simp only [convert_model, Bool.true_eq_false, if_false] at h
      cases hrec : convert_children to_transformer_engine convert_linear convert_ln ctr cs with
      | error e => simp only [hrec] at h; exact Except.noConfusion h
      | ok p =>
          rcases p with ⟨cs', c₁⟩
          simp only [hrec, Except.ok.injEq, Prod.mk.injEq] at h
          obtain ⟨h1, h2⟩ := h
          subst h1; subst h2
          obtain ⟨hle, hp⟩ := convert_children_preserves _ _ _ _ _ _ _ hrec
          exact ⟨hle, .container hp⟩

/-- C4 witness: the concrete forward conversion of `rtTree` (one biased
16×16 linear) from counter 10 is a faithful replacement. -/
theorem claim_C4_witness : 10 ≤ 12 ∧ NodePreserved 10 rtTree rtTreeTe :=
  claim_C4 true true true 10 12 rtTree rtTreeTe rfl

/-- C9: when the loop aborts on a dimension-incompatible linear it returns
normally (no error), and every conversion already performed persists — both
one made inside an already-completed recursive call (child `sname.iname`,
converted to `(mkTeLinear dg ctr).1`) and the counter it advanced — while
the offending layer and everything after it in the aborting call are left
as they stood: a partly converted tree with no rollback. -/
theorem claim_C9 (convert_ln : Bool) (ctr : Nat) (sname iname bname aname : String)
    (dg db : LinearData) (m : Module)
    (hg : dg.weight.shape.any (fun p => p % 16 != 0) = false)
    (hb : db.weight.shape.any (fun p => p % 16 != 0) = true) :
    convert_children true true convert_ln ctr
        (.cons sname (.container (.cons iname (.nnLinear dg) .nil))
          (.cons bname (.nnLinear db) (.cons aname m .nil)))
      = .ok (.cons sname (.container (.cons iname (mkTeLinear dg ctr).1 .nil))
              (.cons bname (.nnLinear db) (.cons aname m .nil)),
             (mkTeLinear dg ctr).2) := by
  simp [convert_children, hg, hb]

/-- C9 witness: concrete run with a completed nested conversion before the
abort. -/
theorem claim_C9_witness :
    (linGood.weight.shape.any (fun p => p % 16 != 0) = false) ∧
    (linBad.weight.shape.any (fun p => p % 16 != 0) = true) ∧
    convert_children true true true 50
        (.cons "sub" (.container (.cons "inner" (.nnLinear linGood) .nil))
          (.cons "bad" (.nnLinear linBad) (.cons "after" (.nnLinear linGood) .nil)))
      = .ok (.cons "sub" (.container (.cons "inner" (mkTeLinear linGood 50).1 .nil))
              (.cons "bad" (.nnLinear linBad) (.cons "after" (.nnLinear linGood) .nil)),
             (mkTeLinear linGood 50).2) :=
  ⟨rfl, rfl,
    claim_C9 true 50 "sub" "inner" "bad" "after" linGood linBad (.nnLinear linGood) rfl rfl⟩

/-- C5: with the library available, `has_transformer_engine_layers` answers
true exactly when some node of the tree — the root or any descendant — is an
instance of one of the three optimized types (`te.Linear`, `te.LayerNorm`,
`te.TransformerLayer`); in particular it answers false for a tree containing
only standard layers (no node satisfying `isTeLayer`). -/
theorem claim_C5 (model : Module) :
    has_transformer_engine_layers true model = .ok true ↔
      ∃ x, Occurs x model ∧ isTeLayer x = true := by
  constructor
  · intro h
    have hbool : hasTeB model = true := by
      simp only [has_transformer_engine_layers, Bool.true_eq_false, if_false,
        Except.ok.injEq] at h
      exact h
    simp only [hasTeB, Bool.or_eq_true] at hbool
    rcases hbool with hbool | hbool
    · exact ⟨model, .refl model, hbool⟩
    · obtain ⟨x, c, hm, ho, ht⟩ := anyTe_occurs _ hbool
      refine ⟨x, ?_, ht⟩
      cases model with
      | container cs => exact .inContainer hm ho
      | teTransformerLayer cs => exact .inTransformer hm ho
      | nnLinear d => exact absurd hm (by intro hmem; cases hmem)
      | nnLayerNorm d => exact absurd hm (by intro hmem; cases hmem)
      | teLinear d => exact absurd hm (by intro hmem; cases hmem)
      | teLayerNorm d => exact absurd hm (by intro hmem; cases hmem)
  · rintro ⟨x, ho, ht⟩
    have hbool := occurs_hasTe ho ht
    simp only [has_transformer_engine_layers, Bool.true_eq_false, if_false,
      Except.ok.injEq]
    exact hbool

/-- C6 counterexample: `apply_fp8_autowrap` is not gated by the
`is_fp8_available` capability check — with the library absent it fails, but
through its own `import transformer_engine.common.recipe` statement
(`ModuleNotFoundError`), not through the guard's `ImportError`; so "every
public entry point is gated by the capability check" is false. -/
theorem claim_C6_counterexample :
    apply_fp8_autowrap false exW none = .error (.moduleNotFoundError "transformer_engine") ∧
    resultFailsViaGuard (apply_fp8_autowrap false exW none) = false :=
  ⟨rfl, rfl⟩

/-- C6 (amended): `convert_model` and `has_transformer_engine_layers` are
gated by the `is_fp8_available` check and fail with its `ImportError` when
the kernel library is absent; `apply_fp8_autowrap` performs no capability
check but still fails when the library is absent, via the failed import of
the kernel library itself (`ModuleNotFoundError`, an `ImportError`
subclass). -/
theorem claim_C6 (model : Module) (wm : WModel) (handler : Option RecipeKwargs)
    (to_transformer_engine convert_linear convert_ln : Bool) (ctr : Nat) :
    convert_model false model to_transformer_engine convert_linear convert_ln ctr
        = .error (.importErrorGuard
            "Using `convert_model` requires transformer_engine to be installed.") ∧
    has_transformer_engine_layers false model
        = .error (.importErrorGuard
            "Using `has_transformer_engine_layers` requires transformer_engine to be installed.") ∧
    apply_fp8_autowrap false wm handler = .error (.moduleNotFoundError "transformer_engine") :=
  ⟨rfl, rfl, rfl⟩

/-- C7: with the library unavailable, `convert_model` and
`has_transformer_engine_layers` fail immediately with the guard's
`ImportError` — for every model and every combination of direction flags,
with the model returned untouched inside no partial result (the guard runs
before the loop); with the library available, neither function ever
surfaces any `ImportError` (`convert_model` can only fail with the reverse
branch's `TypeError`, and `has_transformer_engine_layers` always returns a
Boolean). -/
theorem claim_C7 (model : Module) (to_transformer_engine convert_linear convert_ln : Bool)
    (ctr : Nat) :
    convert_model false model to_transformer_engine convert_linear convert_ln ctr
        = .error (.importErrorGuard
            "Using `convert_model` requires transformer_engine to be installed.") ∧
    has_transformer_engine_layers false model
        = .error (.importErrorGuard
            "Using `has_transformer_engine_layers` requires transformer_engine to be installed.") ∧
    isImportErrorResult
        (convert_model true model to_transformer_engine convert_linear convert_ln ctr)
      = false ∧
    isImportErrorResult (has_transformer_engine_layers true model) = false :=
  ⟨rfl, rfl,
    convert_model_no_import model to_transformer_engine convert_linear convert_ln ctr, rfl⟩

/-- C8: with the library available and a resolvable recipe,
`apply_fp8_autowrap` returns the very same model instance (same identity,
same parameter storages untouched) with exactly one new `fp8_autocast`
wrapper pushed onto its forward binding, whose recipe carries the
`fp8_format` string resolved to the `Format` enum member and the other
kwargs passed through; this holds for any handler and for the `None`
handler. -/
theorem claim_C8 (model : WModel) (handler : Option RecipeKwargs)
    (h : formatResolvable handler = true) :
    apply_fp8_autowrap true model handler
      = .ok { mid := model.mid, params := model.params,
              forwardWrappers := autowrapRecipe handler :: model.forwardWrappers } := by
  cases handler with
  | none => rfl
  | some hk =>
      rcases hf : hk.fp8_format with _ | s
      · simp [apply_fp8_autowrap, hf, autowrapRecipe, kwargsOf]
      · simp only [formatResolvable, kwargsOf, hf] at h
        rcases hfmt : formatOfString s with _ | fmt
        · rw [hfmt] at h
          exact absurd h (by simp)
        · simp [apply_fp8_autowrap, hf, hfmt, autowrapRecipe, kwargsOf]

/-- C8 witness: the driver's own recipe kwargs (`fp8_format="HYBRID"`,
`amax_history_len=32`, `amax_compute_algo="max"`) applied to a concrete
model. -/
theorem claim_C8_witness :
    formatResolvable (some exRecipeKwargs) = true ∧
    apply_fp8_autowrap true exW (some exRecipeKwargs)
      = .ok { mid := exW.mid, params := exW.params,
              forwardWrappers := autowrapRecipe (some exRecipeKwargs) :: exW.forwardWrappers } :=
  ⟨rfl, claim_C8 exW (some exRecipeKwargs) rfl⟩

/-- Dichotomy of the baseline path: either both trailing asserts pass and the
path returns its metric pairs, or the path fails its assertions. -/
theorem train_baseline_cases (o : TrainOutcome) :
    ((train_baseline o).2 = .ok (o.base, o.trained)
        ∧ o.trained.accuracy > o.base.accuracy ∧ o.trained.f1 > o.base.f1)
    ∨ ((train_baseline o).2.isOk = false
        ∧ ¬(o.trained.accuracy > o.base.accuracy ∧ o.trained.f1 > o.base.f1)) := by
  by_cases h1 : o.trained.accuracy > o.base.accuracy
  · by_cases h2 : o.trained.f1 > o.base.f1
    · exact Or.inl ⟨by simp [train_baseline, h1, h2], h1, h2⟩
    · exact Or.inr ⟨by simp [train_baseline, h1, h2, Except.isOk, Except.toBool], by tauto⟩
  · exact Or.inr ⟨by simp [train_baseline, h1, Except.isOk, Except.toBool], by tauto⟩

/-- Dichotomy of the managed path, identical in shape to the baseline. -/
theorem train_integration_cases (o : TrainOutcome) :
    ((train_integration o).2 = .ok (o.base, o.trained)
        ∧ o.trained.accuracy > o.base.accuracy ∧ o.trained.f1 > o.base.f1)
    ∨ ((train_integration o).2.isOk = false
        ∧ ¬(o.trained.accuracy > o.base.accuracy ∧ o.trained.f1 > o.base.f1)) := by
  by_cases h1 : o.trained.accuracy > o.base.accuracy
  · by_cases h2 : o.trained.f1 > o.base.f1
    · exact Or.inl ⟨by simp [train_integration, h1, h2], h1, h2⟩
    · exact Or.inr ⟨by simp [train_integration, h1, h2, Except.isOk, Except.toBool], by tauto⟩
  · exact Or.inr ⟨by simp [train_integration, h1, Except.isOk, Except.toBool], by tauto⟩

/-- C10: the verification driver succeeds exactly when, on both the manual
path and the accelerator-managed path, post-training accuracy and F1
strictly exceed their pre-training values and the four corresponding metric
pairs agree between the two paths; the first violated comparison terminates
with an `AssertionError`. When it succeeds, both paths performed the same
fixed setup: seed 42, the fixed pretrained model `bert-base-cased`, one
training epoch. -/
theorem claim_C10 (b i : TrainOutcome) :
    ((driver_main b i).2.isOk = true ↔
      (b.trained.accuracy > b.base.accuracy ∧ b.trained.f1 > b.base.f1 ∧
       i.trained.accuracy > i.base.accuracy ∧ i.trained.f1 > i.base.f1 ∧
       b.base.accuracy = i.base.accuracy ∧ b.base.f1 = i.base.f1 ∧
       b.trained.accuracy = i.trained.accuracy ∧ b.trained.f1 = i.trained.f1)) ∧
    ((driver_main b i).2.isOk = true →
      (driver_main b i).1 = trainPathEvents ++ trainPathEvents) := by
  rcases train_baseline_cases b with ⟨hbok, hb1, hb2⟩ | ⟨hbfail, hbneg⟩
  · rcases train_integration_cases i with ⟨hiok, hi1, hi2⟩ | ⟨hifail, hineg⟩
    · constructor
      · simp only [driver_main, hbok, hiok]
        by_cases h5 : b.base.accuracy = i.base.accuracy <;>
        by_cases h6 : b.base.f1 = i.base.f1 <;>
        by_cases h7 : b.trained.accuracy = i.trained.accuracy <;>
        by_cases h8 : b.trained.f1 = i.trained.f1 <;>
          simp [h5, h6, h7, h8, hb1, hb2, hi1, hi2, Except.isOk, Except.toBool]
      · intro _
        simp only [driver_main, hbok, hiok]
        rfl
    · cases hif : (train_integration i).2 with
      | ok p =>
          rw [hif] at hifail
          simp [Except.isOk, Except.toBool] at hifail
      | error e =>
          simp only [driver_main, hbok, hif]
          constructor
          · simp only [Except.isOk, Except.toBool]
            constructor
            · intro h
              exact Bool.noConfusion h
            · intro hc
              exact absurd ⟨hc.2.2.1, hc.2.2.2.1⟩ hineg
          · intro h
            simp only [Except.isOk, Except.toBool] at h
            exact Bool.noConfusion h
  · cases hbf : (train_baseline b).2 with
    | ok p =>
        rw [hbf] at hbfail
        simp [Except.isOk, Except.toBool] at hbfail
    | error e =>
        simp only [driver_main, hbf]
        constructor
        · simp only [Except.isOk, Except.toBool]
          constructor
          · intro h
            exact Bool.noConfusion h
          · intro hc
            exact absurd ⟨hc.1, hc.2.1⟩ hbneg
        · intro h
          simp only [Except.isOk, Except.toBool] at h
          exact Bool.noConfusion h

/-- C10 witness: a concrete pair of identical improving outcomes makes the
driver succeed with the doubled fixed setup trace. -/
theorem claim_C10_witness :
    (driver_main exOutcome exOutcome).2.isOk = true ∧
    (driver_main exOutcome exOutcome).1 = trainPathEvents ++ trainPathEvents := by
  have hok : (driver_main exOutcome exOutcome).2.isOk = true :=
    (claim_C10 exOutcome exOutcome).1.mpr
      ⟨by norm_num [exOutcome], by norm_num [exOutcome], by norm_num [exOutcome],
       by norm_num [exOutcome], rfl, rfl, rfl, rfl⟩
  exact ⟨hok, (claim_C10 exOutcome exOutcome).2 hok⟩

end Accelerate
